import Mathlib

/-!
# KeyVaultPro — verification of the zero-knowledge encryption core

Shallow embedding of the encryption utilities (`src/lib/encryption.ts`) and the
vault page's session logic (`src/app/vault/page.tsx`), together with proofs of
the specification's testable properties.

The repository's own orchestration code (key derivation call structure,
encrypt/decrypt wiring, base64 round trip at the storage boundary, password
policy, the vault page's lock/unlock/reveal handlers) is translated directly
from the TypeScript source.  The browser-provided cryptographic primitives
(Web Crypto's PBKDF2, AES-256-GCM, `TextEncoder`/`TextDecoder`, `btoa`/`atob`)
are not part of the repository; following the spec's §4.1–§4.2 contracts they
are modelled symbolically (perfect-cryptography style): a derived key is
determined exactly by (password, salt); an AEAD sealed box carries an
authentication tag that matches only the exact (key, nonce, payload) that
produced it; the printable storage encoding is injective with a partial
decoding inverse.
-/

namespace KeyVaultPro

/-! ## Byte strings

Byte sequences (`Uint8Array` / `ArrayBuffer` in the source) are modelled as
`List Nat`.  `Uint8Array` coerces every written element modulo 256. -/

/-- Modelled from the spec: the browser's `TextEncoder.encode`.  The spec only
requires an injective byte encoding of strings whose decoding recovers the
original exactly; we encode each character as its Unicode code point. -/
def textEncode (s : String) : List Nat := s.data.map Char.toNat

/-- Modelled from the spec: the browser's `TextDecoder.decode` (total, the
inverse of `textEncode` on its image). -/
def textDecode (l : List Nat) : String := String.mk (l.map Char.ofNat)

/-- `crypto.getRandomValues(new Uint8Array(len))`: a fresh array of `len`
random bytes.  The entropy consumed from the secure random source is passed
explicitly; each byte is reduced modulo 256 as `Uint8Array` stores it. -/
def randBytes (len : Nat) (entropy : List Nat) : List Nat :=
  (List.range len).map fun i => entropy.getD i 0 % 256

/-! ## Symbolic model of the Web Crypto primitives -/

/-- Modelled from the spec (§4.1 KeyDerivation): the opaque `CryptoKey`
produced by PBKDF2-HMAC-SHA256.  Determinism — identical (secret, salt) yields
the identical key — is the contract the spec states; ideal collision-freeness
(distinct inputs yield distinct keys) is the perfect-cryptography reading, so
the key is modelled as the pair of inputs itself. -/
structure CryptoKey where
  password : String
  salt : List Nat

/-- `deriveKey` from `src/lib/encryption.ts`: derives the AES-GCM key from the
master password and the salt (PBKDF2, 600,000 iterations, SHA-256).  In the
symbolic model the derived key is determined by exactly these two inputs. -/
def deriveKey (password : String) (salt : List Nat) : CryptoKey :=
  { password := password, salt := salt }

/-- Packs a list of numbers smaller than `2^32` into a single `Nat`
(injectively; the leading 1 delimits the length).  Used to build the symbolic
authentication tag. -/
def packNat : List Nat → Nat
  | [] => 1
  | a :: l => packNat l * 4294967296 + a

/-- Modelled from the spec (§4.2 AuthenticatedCipher): the AES-GCM
authentication tag.  Symbolically the tag is an injective function of the
derived key, the nonce and the payload, so that `open` succeeds on exactly the
(key, nonce, ciphertext) triple that `seal` produced. -/
def tagOf (key : CryptoKey) (iv pt : List Nat) : Nat :=
  Nat.pair (packNat (textEncode key.password))
    (Nat.pair (packNat key.salt) (Nat.pair (packNat iv) (packNat pt)))

/-- Modelled from the spec (§4.2): `crypto.subtle.encrypt` with AES-256-GCM.
The sealed box is the payload followed by the authentication tag (the source
comments note the ciphertext "includes the integrity tag"). -/
def aesGcmEncrypt (key : CryptoKey) (iv pt : List Nat) : List Nat :=
  pt ++ [tagOf key iv pt]

/-- Modelled from the spec (§4.2): `crypto.subtle.decrypt` with AES-256-GCM.
Recomputes the tag over the received payload and fails (`none`, the model of
the thrown `OperationError`) unless it matches the received tag. -/
def aesGcmDecrypt (key : CryptoKey) (iv ct : List Nat) : Option (List Nat) :=
  match ct.reverse with
  | [] => none
  | t :: revBody =>
    let body := revBody.reverse
    if t = tagOf key iv body then some body else none

/-! ## Base64 storage encoding

`arrayBufferToBase64` / `base64ToArrayBuffer` from `src/lib/encryption.ts`
(`String.fromCharCode` + `btoa`, and `atob` + `charCodeAt`).  The spec (§4.3)
requires only a "fixed-alphabet printable text (e.g. base64)" encoding that
round-trips; `btoa`/`atob` are browser primitives, so the encoding is modelled
as base-63 digit strings over the base64 alphabet, one element per `'/'`
terminated group — injective, printable, with a decoding that rejects
malformed input (the model of `atob` throwing `InvalidCharacterError`). -/

def base64Alphabet : List Char :=
  "ABCDEFGHIJKLMNOPQRSTUVWXYZabcdefghijklmnopqrstuvwxyz0123456789+".data

/-- The digit character for a value below 63. -/
def digitChar (d : Nat) : Char := base64Alphabet.getD d 'A'

/-- The value of a digit character (`none` for characters outside the
alphabet). -/
def charDigit (c : Char) : Option Nat := base64Alphabet.findIdx? (fun x => x == c)

/-- Little-endian base-63 digits of `n` (fuel-driven so that it computes by
kernel reduction; `natDigits` supplies sufficient fuel). -/
def natDigitsAux : Nat → Nat → List Nat
  | 0, _ => []
  | fuel + 1, n => if n = 0 then [] else n % 63 :: natDigitsAux fuel (n / 63)

/-- Little-endian base-63 digits of `n`. -/
def natDigits (n : Nat) : List Nat := natDigitsAux n n

/-- Value of a little-endian base-63 digit list. -/
def digitsNat : List Nat → Nat
  | [] => 0
  | d :: ds => d + 63 * digitsNat ds

/-- `arrayBufferToBase64` from the source: renders a byte sequence as
printable text for storage. -/
def arrayBufferToBase64 (buffer : List Nat) : String :=
  String.mk (buffer.flatMap fun n => (natDigits n).map digitChar ++ ['/'])

/-- Parsing loop for `base64ToArrayBuffer`: `ds` accumulates the digits of the
element currently being read. -/
def base64ToArrayBufferAux : List Char → List Nat → Option (List Nat)
  | [], ds => if ds.isEmpty then some [] else none
  | c :: cs, ds =>
    if c = '/' then
      match base64ToArrayBufferAux cs [] with
      | some rest => some (digitsNat ds :: rest)
      | none => none
    else
      match charDigit c with
      | some d => base64ToArrayBufferAux cs (ds ++ [d])
      | none => none

/-- `base64ToArrayBuffer` from the source: decodes stored text back into a
byte sequence; `none` models `atob` throwing on malformed input. -/
def base64ToArrayBuffer (s : String) : Option (List Nat) :=
  base64ToArrayBufferAux s.data []

/-! ## EncryptionService (`src/lib/encryption.ts`) -/

/-- `EncryptionResult` from the source: the encrypted bundle persisted at the
storage boundary. -/
structure EncryptionResult where
  encrypted : String
  iv : String
  salt : String

/-- `DecryptionParams` from the source. -/
structure DecryptionParams where
  encrypted : String
  iv : String
  salt : String
  masterPassword : String

/-- `encryptData` from the source: generates a fresh 16-byte salt and 12-byte
IV from the secure random source (the entropy arguments), derives the key via
PBKDF2, seals the UTF-encoded plaintext with AES-256-GCM, and returns the
base64-encoded bundle. -/
def encryptData (data masterPassword : String)
    (saltEntropy ivEntropy : List Nat) : EncryptionResult :=
  let salt := randBytes 16 saltEntropy
  let iv := randBytes 12 ivEntropy
  let key := deriveKey masterPassword salt
  let encryptedBuffer := aesGcmEncrypt key iv (textEncode data)
  { encrypted := arrayBufferToBase64 encryptedBuffer
    iv := arrayBufferToBase64 iv
    salt := arrayBufferToBase64 salt }

/-- The single error message thrown by `decryptData` (the source wraps the
whole body in one try/catch). -/
def decryptionFailedMsg : String := "Decryption failed: Invalid password or corrupted data"

/-- `decryptData` from the source: decodes salt, IV and ciphertext from
base64, re-derives the key, opens the AEAD box, and decodes the plaintext;
every failure on any of those steps is caught and rethrown as the single
generic `decryptionFailedMsg` error. -/
def decryptData (params : DecryptionParams) : Except String String :=
  match base64ToArrayBuffer params.salt, base64ToArrayBuffer params.iv,
      base64ToArrayBuffer params.encrypted with
  | some salt, some iv, some encryptedData =>
    match aesGcmDecrypt (deriveKey params.masterPassword salt) iv encryptedData with
    | some decryptedBuffer => Except.ok (textDecode decryptedBuffer)
    | none => Except.error decryptionFailedMsg
  | _, _, _ => Except.error decryptionFailedMsg

/-! ## PasswordPolicy (`validateMasterPassword` in `src/lib/encryption.ts`) -/

/-- The JS regex test `/[a-z]/.test(password)`. -/
def hasLowercase (password : String) : Bool :=
  password.data.any fun c => decide ('a' ≤ c) && decide (c ≤ 'z')

/-- The JS regex test `/[A-Z]/.test(password)`. -/
def hasUppercase (password : String) : Bool :=
  password.data.any fun c => decide ('A' ≤ c) && decide (c ≤ 'Z')

/-- The JS regex test `/[0-9]/.test(password)`. -/
def hasNumber (password : String) : Bool :=
  password.data.any fun c => decide ('0' ≤ c) && decide (c ≤ '9')

/-- The JS regex test `/[^a-zA-Z0-9]/.test(password)`: some character outside
all three alphanumeric classes. -/
def hasSpecial (password : String) : Bool :=
  password.data.any fun c =>
    !((decide ('a' ≤ c) && decide (c ≤ 'z')) ||
      (decide ('A' ≤ c) && decide (c ≤ 'Z')) ||
      (decide ('0' ≤ c) && decide (c ≤ '9')))

/-- The result record of `validateMasterPassword`. -/
structure PasswordValidation where
  valid : Bool
  errors : List String

/-- `validateMasterPassword` from the source: all five rules are evaluated
unconditionally, each violated rule appends its message to `errors`, and
`valid` is `errors.length === 0`. -/
def validateMasterPassword (password : String) : PasswordValidation :=
  let errors :=
    (if password.length < 16 then ["Password must be at least 16 characters"] else []) ++
    (if hasLowercase password then [] else ["Password must contain lowercase letters"]) ++
    (if hasUppercase password then [] else ["Password must contain uppercase letters"]) ++
    (if hasNumber password then [] else ["Password must contain numbers"]) ++
    (if hasSpecial password then [] else ["Password must contain special characters"])
  { valid := errors.isEmpty, errors := errors }

/-! ## Vault page (`src/app/vault/page.tsx`)

The React `useState` cells of `VaultPage` form the session state; the event
handlers are translated as pure state transitions.  `setTimeout`-based
auto-locking is modelled by recording the deadline the pending timer would
fire at (`resetAutoLock` clears any pending timer and schedules a new one, so
a single optional deadline is exact); `autoLockFire` is the timer callback,
which has an effect only once the recorded deadline has elapsed. -/

/-- The `decrypted` record attached to a revealed vault item. -/
structure VaultDecrypted where
  apiKey : Option String
  apiSecret : Option String

/-- `VaultItem` from the source (the fields the logic reads; the purely
descriptive metadata fields are omitted).  The store route persists and the
list route returns these fields verbatim, so an item is exactly what
`addToVault` sent. -/
structure VaultItem where
  id : String
  platform_name : String
  encrypted_api_key : String
  encrypted_api_secret : Option String
  encrypted_additional_data : Option String
  encryption_iv : String
  encryption_salt : String
  decrypted : Option VaultDecrypted

/-- The `newVault` form fields that feed `addToVault`. -/
structure NewVault where
  platformName : String
  apiKey : String
  apiSecret : String
  additionalData : String

/-- `addToVault` from the source, composed with the store and list routes
(which persist and return the posted fields verbatim): the vault item that the
entry becomes.  `addToVault` encrypts the API key, the optional API secret and
the optional additional data with three separate `encryptData` calls (each
drawing its own fresh salt and IV), but posts only `encryptedKey.iv` and
`encryptedKey.salt` as the entry's single `encryption_iv`/`encryption_salt`
pair — the salts and IVs of the secret and additional-data encryptions are
discarded. -/
def addToVaultStoredItem (nv : NewVault) (masterPassword : String)
    (keySaltE keyIvE secSaltE secIvE addSaltE addIvE : List Nat)
    (id : String) : VaultItem :=
  let encryptedKey := encryptData nv.apiKey masterPassword keySaltE keyIvE
  let encryptedSecret :=
    if nv.apiSecret = "" then none
    else some (encryptData nv.apiSecret masterPassword secSaltE secIvE)
  let encryptedAdditional :=
    if nv.additionalData = "" then none
    else some (encryptData nv.additionalData masterPassword addSaltE addIvE)
  { id := id
    platform_name := nv.platformName
    encrypted_api_key := encryptedKey.encrypted
    encrypted_api_secret := encryptedSecret.map (fun r => r.encrypted)
    encrypted_additional_data := encryptedAdditional.map (fun r => r.encrypted)
    encryption_iv := encryptedKey.iv
    encryption_salt := encryptedKey.salt
    decrypted := none }

/-- `revealKey` from the source: decrypts the API key, and the API secret when
present, both with the entry's stored `encryption_iv`/`encryption_salt`; any
decryption failure is caught and surfaced as the single reveal error. -/
def revealKey (vault : VaultItem) (masterPassword : String) :
    Except String VaultDecrypted :=
  match decryptData { encrypted := vault.encrypted_api_key
                      iv := vault.encryption_iv
                      salt := vault.encryption_salt
                      masterPassword := masterPassword } with
  | Except.error _ => Except.error "Failed to decrypt: Invalid master password"
  | Except.ok decryptedKey =>
    match vault.encrypted_api_secret with
    | none => Except.ok { apiKey := some decryptedKey, apiSecret := none }
    | some s =>
      match decryptData { encrypted := s
                          iv := vault.encryption_iv
                          salt := vault.encryption_salt
                          masterPassword := masterPassword } with
      | Except.error _ => Except.error "Failed to decrypt: Invalid master password"
      | Except.ok decryptedSecret =>
        Except.ok { apiKey := some decryptedKey, apiSecret := some decryptedSecret }

/-- The `useState` cells of `VaultPage` that the lock/unlock/reveal logic
touches. -/
structure VaultState where
  isUnlocked : Bool
  masterPassword : String
  vaults : List VaultItem
  revealedKeys : List String
  autoLockDeadline : Option Nat
  error : String

/-- The auto-lock delay: `5 * 60 * 1000` milliseconds in `resetAutoLock`. -/
def autoLockDelayMs : Nat := 5 * 60 * 1000

/-- `resetAutoLock` from the source: clears any pending timer and schedules
`lockVault` to fire `autoLockDelayMs` after `now`. -/
def resetAutoLock (s : VaultState) (now : Nat) : VaultState :=
  { s with autoLockDeadline := some (now + autoLockDelayMs) }

/-- `lockVault` from the source: locks the session, clears the master
password, the vault list (including any cached decrypted plaintext), the
revealed-key set, and cancels the pending auto-lock timer. -/
def lockVault (s : VaultState) : VaultState :=
  { s with
    isUnlocked := false
    masterPassword := ""
    vaults := []
    revealedKeys := []
    autoLockDeadline := none }

/-- The auto-lock timer callback firing at time `now`: `setTimeout` runs
`lockVault` once the scheduled deadline has elapsed (a cleared or rescheduled
timer never fires, which the single recorded deadline models). -/
def autoLockFire (s : VaultState) (now : Nat) : VaultState :=
  match s.autoLockDeadline with
  | some d => if d ≤ now then lockVault s else s
  | none => s

/-- Outcome of the `/api/vault/list` fetch inside `unlockVault`. -/
inductive ListFetch
  | success (vaults : List VaultItem)
  | failure
  | networkError

/-- `unlockVault` from the source: clears the error, validates the master
password's strength (showing the joined rule violations on failure), then
fetches the vault list; on a successful fetch it stores the list, sets
`isUnlocked` and starts the auto-lock timer.  No trial decryption of any
bundle (and no call to the `/api/vault/verify-master` verifier) occurs. -/
def unlockVault (s0 : VaultState) (fetch : ListFetch) (now : Nat) : VaultState :=
  let s := { s0 with error := "" }
  let validation := validateMasterPassword s.masterPassword
  if validation.valid = false then
    { s with error := String.intercalate ". " validation.errors }
  else
    match fetch with
    | ListFetch.success vaults =>
      resetAutoLock { s with vaults := vaults, isUnlocked := true } now
    | ListFetch.failure => s
    | ListFetch.networkError => { s with error := "Failed to unlock vault" }

/-- Result of a reveal attempt at the page level. -/
inductive RevealOutcome
  | sessionLocked
  | revealed (d : VaultDecrypted)
  | decryptFailed

/-- A reveal attempt against the page: when the session is locked the page
renders the locked screen and no reveal is possible (`sessionLocked`, the
page-level `if (!isUnlocked)` guard); otherwise `revealKey` runs, and on
success the decrypted data is cached on the item, the item is added to
`revealedKeys`, and the auto-lock timer is reset. -/
def attemptReveal (s : VaultState) (vault : VaultItem) (now : Nat) :
    VaultState × RevealOutcome :=
  if s.isUnlocked = false then (s, RevealOutcome.sessionLocked)
  else
    match revealKey vault s.masterPassword with
    | Except.ok d =>
      let updated := s.vaults.map fun v =>
        if v.id = vault.id then { v with decrypted := some d } else v
      (resetAutoLock { s with
          vaults := updated
          revealedKeys := vault.id :: s.revealedKeys } now,
        RevealOutcome.revealed d)
    | Except.error e => ({ s with error := e }, RevealOutcome.decryptFailed)

/-- Flips bit `k` of the byte at position `i` of a byte sequence (the
single-bit corruption of the spec's tamper-detection property). -/
def flipBit (l : List Nat) (i k : Nat) : List Nat :=
  l.set i (l.getD i 0 ^^^ 2 ^ k)

/-! ## Lemmas: the storage encoding round trip -/

theorem natDigitsAux_spec : ∀ fuel n, n ≤ fuel → digitsNat (natDigitsAux fuel n) = n := by
  intro fuel
  induction fuel with
  | zero => intro n h; interval_cases n; simp [natDigitsAux, digitsNat]
  | succ f ih =>
    intro n h
    by_cases hn : n = 0
    · simp [natDigitsAux, hn, digitsNat]
    · have hdiv : n / 63 ≤ f := by
        have : n / 63 < n := Nat.div_lt_self (Nat.pos_of_ne_zero hn) (by norm_num)
        omega
      simp only [natDigitsAux, hn, if_false, digitsNat, ih _ hdiv]
      omega

theorem digitsNat_natDigits (n : Nat) : digitsNat (natDigits n) = n :=
  natDigitsAux_spec n n le_rfl

theorem natDigitsAux_lt : ∀ fuel n d, d ∈ natDigitsAux fuel n → d < 63 := by
  intro fuel
  induction fuel with
  | zero => intro n d h; simp [natDigitsAux] at h
  | succ f ih =>
    intro n d h
    by_cases hn : n = 0
    · simp [natDigitsAux, hn] at h
    · simp only [natDigitsAux, hn, if_false, List.mem_cons] at h
      rcases h with h | h
      · omega
      · exact ih _ _ h

theorem natDigits_lt (n d : Nat) (h : d ∈ natDigits n) : d < 63 :=
  natDigitsAux_lt n n d h

theorem charDigit_digitChar : ∀ d < 63, charDigit (digitChar d) = some d := by decide

theorem digitChar_ne_term : ∀ d < 63, digitChar d ≠ '/' := by decide

theorem base64Aux_encode :
    ∀ (digs : List Nat), (∀ d ∈ digs, d < 63) → ∀ (rest : List Char) (acc : List Nat),
    base64ToArrayBufferAux (digs.map digitChar ++ '/' :: rest) acc =
      match base64ToArrayBufferAux rest [] with
      | some r => some (digitsNat (acc ++ digs) :: r)
      | none => none := by
  intro digs
  induction digs with
  | nil =>
    intro _ rest acc
    simp [base64ToArrayBufferAux]
  | cons d digs ih =>
    intro hd rest acc
    have hdlt : d < 63 := hd d (List.mem_cons_self d digs)
    have hne : digitChar d ≠ '/' := digitChar_ne_term d hdlt
    simp only [List.map_cons, List.cons_append, base64ToArrayBufferAux, hne, if_false,
      charDigit_digitChar d hdlt, List.append_eq]
    rw [ih (fun x hx => hd x (List.mem_cons_of_mem d hx)) rest (acc ++ [d])]
    have : (acc ++ [d]) ++ digs = acc ++ d :: digs := by
      rw [List.append_assoc]; rfl
    rw [this]

theorem base64_roundtrip (l : List Nat) :
    base64ToArrayBuffer (arrayBufferToBase64 l) = some l := by
  have main : ∀ (l : List Nat),
      base64ToArrayBufferAux
        (l.flatMap fun n => (natDigits n).map digitChar ++ ['/']) [] = some l := by
    intro l
    induction l with
    | nil => simp [base64ToArrayBufferAux]
    | cons n l ih =>
      rw [List.flatMap_cons]
      have hshape : ((natDigits n).map digitChar ++ ['/']) ++
          (l.flatMap fun m => (natDigits m).map digitChar ++ ['/']) =
          (natDigits n).map digitChar ++ '/' ::
            (l.flatMap fun m => (natDigits m).map digitChar ++ ['/']) := by
        rw [List.append_assoc]; rfl
      rw [hshape, base64Aux_encode (natDigits n) (natDigits_lt n) _ []]
      rw [ih]
      simp [digitsNat_natDigits]
  show base64ToArrayBufferAux (String.mk _).data [] = some l
  rw [show (String.mk (l.flatMap fun n => (natDigits n).map digitChar ++ ['/'])).data
      = l.flatMap fun n => (natDigits n).map digitChar ++ ['/'] from rfl]
  exact main l

theorem arrayBufferToBase64_inj {a b : List Nat}
    (h : arrayBufferToBase64 a = arrayBufferToBase64 b) : a = b := by
  have ha := base64_roundtrip a
  rw [h, base64_roundtrip b] at ha
  exact (Option.some.inj ha).symm

/-! ## Lemmas: text encoding, random bytes, and the symbolic AEAD -/

theorem textDecode_textEncode (s : String) : textDecode (textEncode s) = s := by
  simp only [textDecode, textEncode, List.map_map]
  have hcomp : Char.ofNat ∘ Char.toNat = id := by
    funext c
    exact Char.ofNat_toNat c
  rw [hcomp, List.map_id]

theorem textEncode_inj {a b : String} (h : textEncode a = textEncode b) : a = b := by
  have := congrArg textDecode h
  rwa [textDecode_textEncode, textDecode_textEncode] at this

theorem textEncode_lt (s : String) : ∀ x ∈ textEncode s, x < 4294967296 := by
  intro x hx
  simp only [textEncode, List.mem_map] at hx
  obtain ⟨c, _, rfl⟩ := hx
  have := UInt32.toNat_lt_size c.val
  simpa [Char.toNat, UInt32.size] using this

theorem randBytes_length (len : Nat) (entropy : List Nat) :
    (randBytes len entropy).length = len := by
  simp [randBytes]

theorem randBytes_lt (len : Nat) (entropy : List Nat) :
    ∀ x ∈ randBytes len entropy, x < 4294967296 := by
  intro x hx
  simp only [randBytes, List.mem_map] at hx
  obtain ⟨i, _, rfl⟩ := hx
  have : entropy.getD i 0 % 256 < 256 := Nat.mod_lt _ (by norm_num)
  omega

theorem packNat_pos (l : List Nat) : 1 ≤ packNat l := by
  cases l with
  | nil => simp [packNat]
  | cons a l =>
    have := packNat_pos l
    simp only [packNat]
    nlinarith

theorem packNat_inj : ∀ (a b : List Nat),
    (∀ x ∈ a, x < 4294967296) → (∀ x ∈ b, x < 4294967296) →
    packNat a = packNat b → a = b := by
  intro a
  induction a with
  | nil =>
    intro b _ hb h
    cases b with
    | nil => rfl
    | cons y ys =>
      exfalso
      have hy : y < 4294967296 := hb y (List.mem_cons_self y ys)
      have hp := packNat_pos ys
      simp only [packNat] at h
      nlinarith
  | cons x xs ih =>
    intro b ha hb h
    cases b with
    | nil =>
      exfalso
      have hx : x < 4294967296 := ha x (List.mem_cons_self x xs)
      have hp := packNat_pos xs
      simp only [packNat] at h
      nlinarith
    | cons y ys =>
      have hx : x < 4294967296 := ha x (List.mem_cons_self x xs)
      have hy : y < 4294967296 := hb y (List.mem_cons_self y ys)
      simp only [packNat] at h
      have hxy : x = y := by omega
      have hrec : packNat xs = packNat ys := by omega
      have := ih ys (fun z hz => ha z (List.mem_cons_of_mem x hz))
        (fun z hz => hb z (List.mem_cons_of_mem y hz)) hrec
      rw [hxy, this]

theorem tagOf_inj {k1 k2 : CryptoKey} {iv1 iv2 pt1 pt2 : List Nat}
    (hs1 : ∀ x ∈ k1.salt, x < 4294967296) (hs2 : ∀ x ∈ k2.salt, x < 4294967296)
    (hiv1 : ∀ x ∈ iv1, x < 4294967296) (hiv2 : ∀ x ∈ iv2, x < 4294967296)
    (hpt1 : ∀ x ∈ pt1, x < 4294967296) (hpt2 : ∀ x ∈ pt2, x < 4294967296)
    (h : tagOf k1 iv1 pt1 = tagOf k2 iv2 pt2) :
    k1 = k2 ∧ iv1 = iv2 ∧ pt1 = pt2 := by
  simp only [tagOf] at h
  obtain ⟨hpw, h⟩ := Nat.pair_eq_pair.mp h
  obtain ⟨hsalt, h⟩ := Nat.pair_eq_pair.mp h
  obtain ⟨hiv, hpt⟩ := Nat.pair_eq_pair.mp h
  have hpw2 : k1.password = k2.password :=
    textEncode_inj (packNat_inj _ _ (textEncode_lt _) (textEncode_lt _) hpw)
  have hsalt2 : k1.salt = k2.salt := packNat_inj _ _ hs1 hs2 hsalt
  refine ⟨?_, packNat_inj _ _ hiv1 hiv2 hiv, packNat_inj _ _ hpt1 hpt2 hpt⟩
  cases k1
  cases k2
  simp_all

theorem aesGcm_roundtrip (key : CryptoKey) (iv pt : List Nat) :
    aesGcmDecrypt key iv (aesGcmEncrypt key iv pt) = some pt := by
  simp [aesGcmEncrypt, aesGcmDecrypt]

theorem decryptData_of_bundle (ct iv salt : List Nat) (m : String) :
    decryptData { encrypted := arrayBufferToBase64 ct
                  iv := arrayBufferToBase64 iv
                  salt := arrayBufferToBase64 salt
                  masterPassword := m } =
      match aesGcmDecrypt (deriveKey m salt) iv ct with
      | some pt => Except.ok (textDecode pt)
      | none => Except.error decryptionFailedMsg := by
  simp [decryptData, base64_roundtrip]

theorem encryptData_encrypted (p m : String) (saltE ivE : List Nat) :
    (encryptData p m saltE ivE).encrypted =
      arrayBufferToBase64
        (aesGcmEncrypt (deriveKey m (randBytes 16 saltE)) (randBytes 12 ivE)
          (textEncode p)) := rfl

theorem encryptData_iv (p m : String) (saltE ivE : List Nat) :
    (encryptData p m saltE ivE).iv = arrayBufferToBase64 (randBytes 12 ivE) := rfl

theorem encryptData_salt (p m : String) (saltE ivE : List Nat) :
    (encryptData p m saltE ivE).salt = arrayBufferToBase64 (randBytes 16 saltE) := rfl

theorem aesGcmDecrypt_wrong_key (k1 k2 : CryptoKey) (iv pt : List Nat)
    (hs1 : ∀ x ∈ k1.salt, x < 4294967296) (hs2 : ∀ x ∈ k2.salt, x < 4294967296)
    (hiv : ∀ x ∈ iv, x < 4294967296) (hpt : ∀ x ∈ pt, x < 4294967296)
    (hne : k1 ≠ k2) :
    aesGcmDecrypt k2 iv (aesGcmEncrypt k1 iv pt) = none := by
  simp only [aesGcmEncrypt, aesGcmDecrypt, List.reverse_append, List.reverse_cons,
    List.reverse_nil, List.nil_append, List.singleton_append, List.reverse_reverse]
  rw [if_neg]
  intro h
  exact hne (tagOf_inj hs1 hs2 hiv hiv hpt hpt h).1

/-- C1: for every plaintext string `p` and every master password `m`,
`decryptData` applied to the `EncryptionResult` produced by `encryptData` with
the same master password returns exactly `p` (for any randomness the secure
random source supplies). -/
theorem C1_decrypt_encrypt_roundtrip (p m : String) (saltE ivE : List Nat) :
    decryptData { encrypted := (encryptData p m saltE ivE).encrypted
                  iv := (encryptData p m saltE ivE).iv
                  salt := (encryptData p m saltE ivE).salt
                  masterPassword := m } = Except.ok p := by
  rw [encryptData_encrypted, encryptData_iv, encryptData_salt, decryptData_of_bundle,
    aesGcm_roundtrip]
  simp [textDecode_textEncode]

/-- C5: decrypting a bundle produced under master password `m1` with a
different master password `m2` fails with the single generic decryption
error, never returning a plaintext. -/
theorem C5_wrong_password_rejected (p m1 m2 : String) (saltE ivE : List Nat)
    (hne : m1 ≠ m2) :
    decryptData { encrypted := (encryptData p m1 saltE ivE).encrypted
                  iv := (encryptData p m1 saltE ivE).iv
                  salt := (encryptData p m1 saltE ivE).salt
                  masterPassword := m2 } = Except.error decryptionFailedMsg := by
  rw [encryptData_encrypted, encryptData_iv, encryptData_salt, decryptData_of_bundle]
  rw [aesGcmDecrypt_wrong_key (deriveKey m1 (randBytes 16 saltE))
    (deriveKey m2 (randBytes 16 saltE)) _ _
    (randBytes_lt _ _) (randBytes_lt _ _) (randBytes_lt _ _) (textEncode_lt _)
    (by intro h; exact hne (congrArg CryptoKey.password h))]

/-- Witness for C5 at the spec's §8 scenario inputs. -/
theorem C5_wrong_password_rejected_witness :
    ("CorrectHorseBattery9!" : String) ≠ "WrongPassword1!" ∧
    decryptData
      { encrypted := (encryptData "sk_live_abc123" "CorrectHorseBattery9!" [] []).encrypted
        iv := (encryptData "sk_live_abc123" "CorrectHorseBattery9!" [] []).iv
        salt := (encryptData "sk_live_abc123" "CorrectHorseBattery9!" [] []).salt
        masterPassword := "WrongPassword1!" } = Except.error decryptionFailedMsg :=
  ⟨by decide,
    C5_wrong_password_rejected "sk_live_abc123" "CorrectHorseBattery9!" "WrongPassword1!"
      [] [] (by decide)⟩

/-- C10: `decryptData` has a single public failure mode — for every input
bundle, well formed or not, it either returns a plaintext or fails with the
one generic error message. -/
theorem C10_decrypt_single_generic_error (params : DecryptionParams) :
    (∃ s, decryptData params = Except.ok s) ∨
      decryptData params = Except.error decryptionFailedMsg := by
  cases hsalt : base64ToArrayBuffer params.salt with
  | none => right; simp [decryptData, hsalt]
  | some salt =>
    cases hiv : base64ToArrayBuffer params.iv with
    | none => right; simp [decryptData, hsalt, hiv]
    | some iv =>
      cases henc : base64ToArrayBuffer params.encrypted with
      | none => right; simp [decryptData, hsalt, hiv, henc]
      | some ct =>
        cases hdec : aesGcmDecrypt (deriveKey params.masterPassword salt) iv ct with
        | none => right; simp [decryptData, hsalt, hiv, henc, hdec]
        | some pt =>
          left
          exact ⟨textDecode pt, by simp [decryptData, hsalt, hiv, henc, hdec]⟩

theorem xor_pow2_ne_self (a k : Nat) : a ^^^ 2 ^ k ≠ a := by
  intro h
  have hk : (2 : Nat) ^ k ≠ 0 := Nat.pos_iff_ne_zero.mp (Nat.pos_pow_of_pos k (by norm_num))
  apply hk
  calc 2 ^ k = 0 ^^^ 2 ^ k := (Nat.zero_xor _).symm
    _ = (a ^^^ a) ^^^ 2 ^ k := by rw [Nat.xor_self]
    _ = a ^^^ (a ^^^ 2 ^ k) := Nat.xor_assoc a a (2 ^ k)
    _ = a ^^^ a := by rw [h]
    _ = 0 := Nat.xor_self a

theorem flipBit_ne {l : List Nat} (i k : Nat) (hi : i < l.length) :
    flipBit l i k ≠ l := by
  intro h
  have hgd : (flipBit l i k).getD i 0 = l.getD i 0 := by rw [h]
  have hset : (flipBit l i k).getD i 0 = l.getD i 0 ^^^ 2 ^ k := by
    simp only [flipBit, List.getD_eq_getElem?_getD, List.getElem?_set_self hi]
    rfl
  rw [hset] at hgd
  exact xor_pow2_ne_self (l.getD i 0) k hgd

theorem flipBit_append_left (pt : List Nat) (t : Nat) (i k : Nat)
    (hi : i < pt.length) :
    flipBit (pt ++ [t]) i k = pt.set i (pt.getD i 0 ^^^ 2 ^ k) ++ [t] := by
  simp only [flipBit, List.set_append, hi, if_pos]
  congr 2
  rw [List.getD_eq_getElem?_getD, List.getElem?_append, if_pos hi,
    ← List.getD_eq_getElem?_getD]

theorem flipBit_append_last (pt : List Nat) (t : Nat) (k : Nat) :
    flipBit (pt ++ [t]) pt.length k = pt ++ [t ^^^ 2 ^ k] := by
  simp only [flipBit, List.set_append]
  rw [if_neg (by omega)]
  simp only [Nat.sub_self, List.set_cons_zero]
  congr 2
  rw [List.getD_eq_getElem?_getD, List.getElem?_append, if_neg (by omega),
    Nat.sub_self]
  rfl

theorem aesGcmDecrypt_bad_tag (key : CryptoKey) (iv pt : List Nat) (t : Nat)
    (ht : t ≠ tagOf key iv pt) :
    aesGcmDecrypt key iv (pt ++ [t]) = none := by
  simp only [aesGcmDecrypt, List.reverse_append, List.reverse_cons, List.reverse_nil,
    List.nil_append, List.singleton_append, List.reverse_reverse]
  rw [if_neg ht]

theorem mem_set_lt {l : List Nat} {x : Nat} (i : Nat)
    (hl : ∀ y ∈ l, y < 4294967296) (hx : x < 4294967296) :
    ∀ y ∈ l.set i x, y < 4294967296 := by
  intro y hy
  rcases List.mem_or_eq_of_mem_set hy with h | h
  · exact hl y h
  · omega

theorem aesGcmDecrypt_flipBit (key : CryptoKey) (iv pt : List Nat) (i k : Nat)
    (hs : ∀ x ∈ key.salt, x < 4294967296) (hiv : ∀ x ∈ iv, x < 4294967296)
    (hpt : ∀ x ∈ pt, x < 4294967296)
    (hi : i < (aesGcmEncrypt key iv pt).length) (hk : k < 32) :
    aesGcmDecrypt key iv (flipBit (aesGcmEncrypt key iv pt) i k) = none := by
  have hlen : (aesGcmEncrypt key iv pt).length = pt.length + 1 := by
    simp [aesGcmEncrypt]
  rcases Nat.lt_or_ge i pt.length with hbody | hlast
  · -- the flipped bit lands in the payload: the recomputed tag cannot match
    have hflip : flipBit (aesGcmEncrypt key iv pt) i k =
        pt.set i (pt.getD i 0 ^^^ 2 ^ k) ++ [tagOf key iv pt] :=
      flipBit_append_left pt (tagOf key iv pt) i k hbody
    rw [hflip]
    apply aesGcmDecrypt_bad_tag
    intro htag
    have hpow : (4294967296 : Nat) = 2 ^ 32 := by norm_num
    have hx : pt.getD i 0 ^^^ 2 ^ k < 4294967296 := by
      have h1 : pt.getD i 0 < 2 ^ 32 := by
        rw [← hpow]
        have hgd : pt.getD i 0 = pt.get ⟨i, hbody⟩ := by
          rw [List.getD_eq_getElem?_getD, List.getElem?_eq_getElem hbody]
          rfl
        rw [hgd]
        exact hpt _ (List.get_mem pt i hbody)
      have h2 : (2 : Nat) ^ k < 2 ^ 32 := Nat.pow_lt_pow_right (by norm_num) hk
      have h3 := Nat.xor_lt_two_pow h1 h2
      rw [hpow]
      exact h3
    have heq := (tagOf_inj hs hs hiv hiv hpt
      (mem_set_lt i hpt hx) htag).2.2
    have hfix : flipBit pt i k = pt := heq.symm
    exact flipBit_ne i k hbody hfix
  · -- the flipped bit lands in the tag: the stored tag no longer matches
    have hieq : i = pt.length := by omega
    subst hieq
    have hflip : flipBit (aesGcmEncrypt key iv pt) pt.length k =
        pt ++ [tagOf key iv pt ^^^ 2 ^ k] :=
      flipBit_append_last pt (tagOf key iv pt) k
    rw [hflip]
    exact aesGcmDecrypt_bad_tag key iv pt _ (xor_pow2_ne_self _ k)

/-- C4: for every bundle produced by `encryptData` under password `m`,
flipping any single bit of the bundle's ciphertext bytes yields a genuinely
different ciphertext, and decrypting the modified bundle with `m` fails with
the generic decryption error instead of returning altered plaintext. -/
theorem C4_tamper_detection (p m : String) (saltE ivE : List Nat) (i k : Nat)
    (ct : List Nat)
    (hct : ct = aesGcmEncrypt (deriveKey m (randBytes 16 saltE)) (randBytes 12 ivE)
      (textEncode p))
    (hi : i < ct.length) (hk : k < 32) :
    flipBit ct i k ≠ ct ∧
    decryptData { encrypted := arrayBufferToBase64 (flipBit ct i k)
                  iv := (encryptData p m saltE ivE).iv
                  salt := (encryptData p m saltE ivE).salt
                  masterPassword := m } = Except.error decryptionFailedMsg := by
  subst hct
  refine ⟨flipBit_ne i k hi, ?_⟩
  rw [encryptData_iv, encryptData_salt, decryptData_of_bundle]
  rw [aesGcmDecrypt_flipBit _ _ _ i k (randBytes_lt _ _) (randBytes_lt _ _)
    (textEncode_lt _) hi hk]

/-- Witness for C4: a concrete bundle with the first ciphertext bit flipped. -/
theorem C4_tamper_detection_witness :
    (0 : Nat) <
      (aesGcmEncrypt (deriveKey "CorrectHorseBattery9!" (randBytes 16 []))
        (randBytes 12 []) (textEncode "sk_live_abc123")).length ∧
    (0 : Nat) < 32 ∧
    (flipBit (aesGcmEncrypt (deriveKey "CorrectHorseBattery9!" (randBytes 16 []))
        (randBytes 12 []) (textEncode "sk_live_abc123")) 0 0 ≠
      aesGcmEncrypt (deriveKey "CorrectHorseBattery9!" (randBytes 16 []))
        (randBytes 12 []) (textEncode "sk_live_abc123") ∧
    decryptData
      { encrypted := arrayBufferToBase64
          (flipBit (aesGcmEncrypt (deriveKey "CorrectHorseBattery9!" (randBytes 16 []))
            (randBytes 12 []) (textEncode "sk_live_abc123")) 0 0)
        iv := (encryptData "sk_live_abc123" "CorrectHorseBattery9!" [] []).iv
        salt := (encryptData "sk_live_abc123" "CorrectHorseBattery9!" [] []).salt
        masterPassword := "CorrectHorseBattery9!" } =
      Except.error decryptionFailedMsg) :=
  ⟨by decide, by decide,
    C4_tamper_detection "sk_live_abc123" "CorrectHorseBattery9!" [] [] 0 0 _ rfl
      (by decide) (by decide)⟩

/-- C6: two `encryptData` calls with the identical plaintext and password but
distinct randomness produce different salt, IV and ciphertext values; each
call derives its own key from its own fresh salt (no key is shared between
the calls), and the generated salt is 16 bytes and the IV 12 bytes. -/
theorem C6_fresh_salt_nonce (p m : String) (se1 ie1 se2 ie2 : List Nat)
    (hsalt : randBytes 16 se1 ≠ randBytes 16 se2)
    (hiv : randBytes 12 ie1 ≠ randBytes 12 ie2) :
    (encryptData p m se1 ie1).salt ≠ (encryptData p m se2 ie2).salt ∧
    (encryptData p m se1 ie1).iv ≠ (encryptData p m se2 ie2).iv ∧
    (encryptData p m se1 ie1).encrypted ≠ (encryptData p m se2 ie2).encrypted ∧
    deriveKey m (randBytes 16 se1) ≠ deriveKey m (randBytes 16 se2) ∧
    (randBytes 16 se1).length = 16 ∧ (randBytes 12 ie1).length = 12 := by
  refine ⟨?_, ?_, ?_, ?_, randBytes_length _ _, randBytes_length _ _⟩
  · rw [encryptData_salt, encryptData_salt]
    intro h
    exact hsalt (arrayBufferToBase64_inj h)
  · rw [encryptData_iv, encryptData_iv]
    intro h
    exact hiv (arrayBufferToBase64_inj h)
  · rw [encryptData_encrypted, encryptData_encrypted]
    intro h
    have hc := arrayBufferToBase64_inj h
    simp only [aesGcmEncrypt] at hc
    have htag := List.append_cancel_left hc
    simp only [List.cons.injEq, and_true] at htag
    have hkeys := (tagOf_inj (randBytes_lt _ _) (randBytes_lt _ _) (randBytes_lt _ _)
      (randBytes_lt _ _) (textEncode_lt _) (textEncode_lt _) htag).1
    exact hsalt (congrArg CryptoKey.salt hkeys)
  · intro h
    exact hsalt (congrArg CryptoKey.salt h)

/-- Witness for C6 at concrete distinct randomness. -/
theorem C6_fresh_salt_nonce_witness :
    randBytes 16 [7] ≠ randBytes 16 [8] ∧
    randBytes 12 [9] ≠ randBytes 12 [10] ∧
    ((encryptData "sk_live_abc123" "CorrectHorseBattery9!" [7] [9]).salt ≠
        (encryptData "sk_live_abc123" "CorrectHorseBattery9!" [8] [10]).salt ∧
      (encryptData "sk_live_abc123" "CorrectHorseBattery9!" [7] [9]).iv ≠
        (encryptData "sk_live_abc123" "CorrectHorseBattery9!" [8] [10]).iv ∧
      (encryptData "sk_live_abc123" "CorrectHorseBattery9!" [7] [9]).encrypted ≠
        (encryptData "sk_live_abc123" "CorrectHorseBattery9!" [8] [10]).encrypted ∧
      deriveKey "CorrectHorseBattery9!" (randBytes 16 [7]) ≠
        deriveKey "CorrectHorseBattery9!" (randBytes 16 [8]) ∧
      (randBytes 16 [7]).length = 16 ∧ (randBytes 12 [9]).length = 12) :=
  ⟨by decide, by decide,
    C6_fresh_salt_nonce "sk_live_abc123" "CorrectHorseBattery9!" [7] [9] [8] [10]
      (by decide) (by decide)⟩

theorem mem_if_singleton {msg m2 : String} {c : Prop} [Decidable c] :
    (msg ∈ if c then [m2] else []) ↔ (c ∧ msg = m2) := by
  split_ifs with h <;> simp [h]

theorem mem_if_nil_singleton {msg m2 : String} {b : Bool} :
    (msg ∈ if b then [] else [m2]) ↔ (b = false ∧ msg = m2) := by
  cases b <;> simp

/-- C7: `validateMasterPassword` evaluates all five rules independently (each
violated rule's message is in `errors` exactly when that rule is violated,
regardless of the other rules), `valid` holds exactly when `errors` is empty,
`validateMasterPassword "short1A!"` reports the length violation, and
`validateMasterPassword "LongEnough12345!"` reports no violations. -/
theorem C7_validate_master_password :
    (∀ p : String,
      ((validateMasterPassword p).valid = true ↔ (validateMasterPassword p).errors = []) ∧
      ("Password must be at least 16 characters" ∈ (validateMasterPassword p).errors ↔
        p.length < 16) ∧
      ("Password must contain lowercase letters" ∈ (validateMasterPassword p).errors ↔
        hasLowercase p = false) ∧
      ("Password must contain uppercase letters" ∈ (validateMasterPassword p).errors ↔
        hasUppercase p = false) ∧
      ("Password must contain numbers" ∈ (validateMasterPassword p).errors ↔
        hasNumber p = false) ∧
      ("Password must contain special characters" ∈ (validateMasterPassword p).errors ↔
        hasSpecial p = false)) ∧
    "Password must be at least 16 characters" ∈ (validateMasterPassword "short1A!").errors ∧
    (validateMasterPassword "LongEnough12345!").errors = [] ∧
    (validateMasterPassword "LongEnough12345!").valid = true := by
  refine ⟨fun p => ?_, by decide, by decide, by decide⟩
  have d1 : ("Password must be at least 16 characters" : String) ≠
    "Password must contain lowercase letters" := by decide
  have d2 : ("Password must be at least 16 characters" : String) ≠
    "Password must contain uppercase letters" := by decide
  have d3 : ("Password must be at least 16 characters" : String) ≠
    "Password must contain numbers" := by decide
  have d4 : ("Password must be at least 16 characters" : String) ≠
    "Password must contain special characters" := by decide
  have d5 : ("Password must contain lowercase letters" : String) ≠
    "Password must contain uppercase letters" := by decide
  have d6 : ("Password must contain lowercase letters" : String) ≠
    "Password must contain numbers" := by decide
  have d7 : ("Password must contain lowercase letters" : String) ≠
    "Password must contain special characters" := by decide
  have d8 : ("Password must contain uppercase letters" : String) ≠
    "Password must contain numbers" := by decide
  have d9 : ("Password must contain uppercase letters" : String) ≠
    "Password must contain special characters" := by decide
  have d10 : ("Password must contain numbers" : String) ≠
    "Password must contain special characters" := by decide
  refine ⟨?_, ?_, ?_, ?_, ?_, ?_⟩
  · simp only [validateMasterPassword, List.isEmpty_iff]
  · simp only [validateMasterPassword, List.mem_append, mem_if_singleton,
      mem_if_nil_singleton]
    simp [d1, d2, d3, d4]
  · simp only [validateMasterPassword, List.mem_append, mem_if_singleton,
      mem_if_nil_singleton]
    simp [d1.symm, d5, d6, d7]
  · simp only [validateMasterPassword, List.mem_append, mem_if_singleton,
      mem_if_nil_singleton]
    simp [d2.symm, d5.symm, d8, d9]
  · simp only [validateMasterPassword, List.mem_append, mem_if_singleton,
      mem_if_nil_singleton]
    simp [d3.symm, d6.symm, d8.symm, d10]
  · simp only [validateMasterPassword, List.mem_append, mem_if_singleton,
      mem_if_nil_singleton]
    simp [d4.symm, d7.symm, d9.symm, d10.symm]

theorem aesGcmDecrypt_mismatch (k1 k2 : CryptoKey) (iv1 iv2 pt : List Nat)
    (hs1 : ∀ x ∈ k1.salt, x < 4294967296) (hs2 : ∀ x ∈ k2.salt, x < 4294967296)
    (hiv1 : ∀ x ∈ iv1, x < 4294967296) (hiv2 : ∀ x ∈ iv2, x < 4294967296)
    (hpt : ∀ x ∈ pt, x < 4294967296)
    (hne : ¬(k1 = k2 ∧ iv1 = iv2)) :
    aesGcmDecrypt k2 iv2 (aesGcmEncrypt k1 iv1 pt) = none := by
  simp only [aesGcmEncrypt, aesGcmDecrypt, List.reverse_append, List.reverse_cons,
    List.reverse_nil, List.nil_append, List.singleton_append, List.reverse_reverse]
  rw [if_neg]
  intro h
  have := tagOf_inj hs1 hs2 hiv1 hiv2 hpt hpt h
  exact hne ⟨this.1, this.2.1⟩

/-- C3 (failing input for the claim): with the strength-valid but wrong master
password `"WrongPassword123!"` and a vault whose only bundle was encrypted
under `"CorrectHorseBattery9!"`, `unlockVault` transitions the session to
Unlocked after a successful list fetch even though trial decryption of the
vault's bundle with the supplied secret fails — no trial decryption is
performed and no `InvalidMasterSecret` is reported. -/
theorem C3_unlock_without_trial_decryption :
    (unlockVault
      { isUnlocked := false
        masterPassword := "WrongPassword123!"
        vaults := []
        revealedKeys := []
        autoLockDeadline := none
        error := "" }
      (ListFetch.success [addToVaultStoredItem ⟨"Stripe", "sk_live_abc123", "", ""⟩
        "CorrectHorseBattery9!" [0] [1] [] [] [] [] "id1"]) 0).isUnlocked = true ∧
    decryptData
      { encrypted := (addToVaultStoredItem ⟨"Stripe", "sk_live_abc123", "", ""⟩
          "CorrectHorseBattery9!" [0] [1] [] [] [] [] "id1").encrypted_api_key
        iv := (addToVaultStoredItem ⟨"Stripe", "sk_live_abc123", "", ""⟩
          "CorrectHorseBattery9!" [0] [1] [] [] [] [] "id1").encryption_iv
        salt := (addToVaultStoredItem ⟨"Stripe", "sk_live_abc123", "", ""⟩
          "CorrectHorseBattery9!" [0] [1] [] [] [] [] "id1").encryption_salt
        masterPassword := "WrongPassword123!" } = Except.error decryptionFailedMsg := by
  constructor
  · rfl
  · show decryptData
      { encrypted := (encryptData "sk_live_abc123" "CorrectHorseBattery9!" [0] [1]).encrypted
        iv := (encryptData "sk_live_abc123" "CorrectHorseBattery9!" [0] [1]).iv
        salt := (encryptData "sk_live_abc123" "CorrectHorseBattery9!" [0] [1]).salt
        masterPassword := "WrongPassword123!" } = Except.error decryptionFailedMsg
    rw [encryptData_encrypted, encryptData_iv, encryptData_salt, decryptData_of_bundle,
      aesGcmDecrypt_wrong_key _ _ _ _ (randBytes_lt _ _) (randBytes_lt _ _)
        (randBytes_lt _ _) (textEncode_lt _)
        (by
          intro h
          exact absurd (congrArg CryptoKey.password h) (by decide))]

theorem revealKey_of_secret_fail (v : VaultItem) (m s e : String)
    (hsec : v.encrypted_api_secret = some s)
    (hfail : decryptData { encrypted := s
                           iv := v.encryption_iv
                           salt := v.encryption_salt
                           masterPassword := m } = Except.error e) :
    revealKey v m = Except.error "Failed to decrypt: Invalid master password" := by
  unfold revealKey
  cases h1 : decryptData { encrypted := v.encrypted_api_key
                           iv := v.encryption_iv
                           salt := v.encryption_salt
                           masterPassword := m } with
  | error e1 => simp [h1]
  | ok k => simp [h1, hsec, hfail]

/-- C2 (failing input for the claim): an entry stored with API key
`"sk_live_abc123"` and API secret `"sec_XYZ"` keeps the secret's ciphertext
but only the API key's salt and IV (the secret's own fresh salt and IV are
discarded by `addToVault`), so revealing the entry with the very master
password it was stored under fails instead of recovering the secret. -/
theorem C2_api_secret_not_recoverable :
    (addToVaultStoredItem ⟨"Stripe", "sk_live_abc123", "sec_XYZ", ""⟩
        "CorrectHorseBattery9!" [0] [1] [2] [3] [] [] "id1").encrypted_api_secret =
      some (encryptData "sec_XYZ" "CorrectHorseBattery9!" [2] [3]).encrypted ∧
    (addToVaultStoredItem ⟨"Stripe", "sk_live_abc123", "sec_XYZ", ""⟩
        "CorrectHorseBattery9!" [0] [1] [2] [3] [] [] "id1").encryption_salt =
      (encryptData "sk_live_abc123" "CorrectHorseBattery9!" [0] [1]).salt ∧
    (addToVaultStoredItem ⟨"Stripe", "sk_live_abc123", "sec_XYZ", ""⟩
        "CorrectHorseBattery9!" [0] [1] [2] [3] [] [] "id1").encryption_iv =
      (encryptData "sk_live_abc123" "CorrectHorseBattery9!" [0] [1]).iv ∧
    revealKey (addToVaultStoredItem ⟨"Stripe", "sk_live_abc123", "sec_XYZ", ""⟩
        "CorrectHorseBattery9!" [0] [1] [2] [3] [] [] "id1") "CorrectHorseBattery9!" =
      Except.error "Failed to decrypt: Invalid master password" := by
  refine ⟨rfl, rfl, rfl, ?_⟩
  apply revealKey_of_secret_fail _ _ _ decryptionFailedMsg rfl
  show decryptData
      { encrypted := (encryptData "sec_XYZ" "CorrectHorseBattery9!" [2] [3]).encrypted
        iv := (encryptData "sk_live_abc123" "CorrectHorseBattery9!" [0] [1]).iv
        salt := (encryptData "sk_live_abc123" "CorrectHorseBattery9!" [0] [1]).salt
        masterPassword := "CorrectHorseBattery9!" } = Except.error decryptionFailedMsg
  rw [encryptData_encrypted, encryptData_iv, encryptData_salt, decryptData_of_bundle,
    aesGcmDecrypt_mismatch _ _ _ _ _ (randBytes_lt _ _) (randBytes_lt _ _)
      (randBytes_lt _ _) (randBytes_lt _ _) (textEncode_lt _)
      (by
        rintro ⟨hk, _⟩
        exact absurd (congrArg CryptoKey.salt hk) (by decide))]

/-- C8: after a successful unlock whose auto-lock deadline is `t0 + 5min`, if
no activity resets the timer then once the deadline elapses the timer fires
and locks the session, every subsequent reveal attempt is rejected by the
session-locked guard without touching any bundle, and an activity event at
`t0 + 4min` pushes the deadline to `t0 + 9min`. -/
theorem C8_auto_lock_timeout (s : VaultState) (t0 now now2 : Nat) (item : VaultItem)
    (_hunlocked : s.isUnlocked = true)
    (hdl : s.autoLockDeadline = some (t0 + autoLockDelayMs))
    (helapsed : t0 + autoLockDelayMs ≤ now) :
    (autoLockFire s now).isUnlocked = false ∧
    (attemptReveal (autoLockFire s now) item now2).2 = RevealOutcome.sessionLocked ∧
    (attemptReveal (autoLockFire s now) item now2).1 = autoLockFire s now ∧
    (resetAutoLock s (t0 + 4 * 60 * 1000)).autoLockDeadline =
      some (t0 + 9 * 60 * 1000) := by
  have hfire : autoLockFire s now = lockVault s := by
    simp [autoLockFire, hdl, helapsed]
  refine ⟨by rw [hfire]; rfl, ?_, ?_, ?_⟩
  · rw [hfire]
    simp [attemptReveal, lockVault]
  · rw [hfire]
    simp [attemptReveal, lockVault]
  · have harith : t0 + 4 * 60 * 1000 + autoLockDelayMs = t0 + 9 * 60 * 1000 := by
      show t0 + 4 * 60 * 1000 + 5 * 60 * 1000 = t0 + 9 * 60 * 1000
      omega
    simp only [resetAutoLock]
    exact congrArg some harith

/-- Witness for C8 on a concrete unlocked session at `t0 = 0`. -/
theorem C8_auto_lock_timeout_witness :
    ({ isUnlocked := true
       masterPassword := "CorrectHorseBattery9!"
       vaults := []
       revealedKeys := []
       autoLockDeadline := some (0 + autoLockDelayMs)
       error := "" } : VaultState).isUnlocked = true ∧
    ({ isUnlocked := true
       masterPassword := "CorrectHorseBattery9!"
       vaults := []
       revealedKeys := []
       autoLockDeadline := some (0 + autoLockDelayMs)
       error := "" } : VaultState).autoLockDeadline = some (0 + autoLockDelayMs) ∧
    0 + autoLockDelayMs ≤ 300000 ∧
    ((autoLockFire
        { isUnlocked := true
          masterPassword := "CorrectHorseBattery9!"
          vaults := []
          revealedKeys := []
          autoLockDeadline := some (0 + autoLockDelayMs)
          error := "" } 300000).isUnlocked = false ∧
      (attemptReveal (autoLockFire
          { isUnlocked := true
            masterPassword := "CorrectHorseBattery9!"
            vaults := []
            revealedKeys := []
            autoLockDeadline := some (0 + autoLockDelayMs)
            error := "" } 300000)
        ⟨"id1", "Stripe", "ct", none, none, "iv", "salt", none⟩ 300001).2 =
        RevealOutcome.sessionLocked ∧
      (attemptReveal (autoLockFire
          { isUnlocked := true
            masterPassword := "CorrectHorseBattery9!"
            vaults := []
            revealedKeys := []
            autoLockDeadline := some (0 + autoLockDelayMs)
            error := "" } 300000)
        ⟨"id1", "Stripe", "ct", none, none, "iv", "salt", none⟩ 300001).1 =
        autoLockFire
          { isUnlocked := true
            masterPassword := "CorrectHorseBattery9!"
            vaults := []
            revealedKeys := []
            autoLockDeadline := some (0 + autoLockDelayMs)
            error := "" } 300000 ∧
      (resetAutoLock
          { isUnlocked := true
            masterPassword := "CorrectHorseBattery9!"
            vaults := []
            revealedKeys := []
            autoLockDeadline := some (0 + autoLockDelayMs)
            error := "" } (0 + 4 * 60 * 1000)).autoLockDeadline =
        some (0 + 9 * 60 * 1000)) :=
  ⟨rfl, rfl, by decide,
    C8_auto_lock_timeout _ 0 300000 300001
      ⟨"id1", "Stripe", "ct", none, none, "iv", "salt", none⟩ rfl rfl (by decide)⟩

/-- C9: every transition into the Locked state goes through `lockVault`, which
clears the master secret, the vault list together with any cached decrypted
plaintext, and the revealed-key set; in particular the inactivity timeout path
is exactly `lockVault`, and afterwards the session is locked with no pending
timer. -/
theorem C9_lock_clears_secrets (s : VaultState) (d now : Nat)
    (hd : s.autoLockDeadline = some d) (hnow : d ≤ now) :
    (lockVault s).isUnlocked = false ∧
    (lockVault s).masterPassword = "" ∧
    (lockVault s).vaults = [] ∧
    (lockVault s).revealedKeys = [] ∧
    (lockVault s).autoLockDeadline = none ∧
    autoLockFire s now = lockVault s := by
  refine ⟨rfl, rfl, rfl, rfl, rfl, ?_⟩
  simp [autoLockFire, hd, hnow]

/-- Witness for C9 on a concrete unlocked session holding cached plaintext. -/
theorem C9_lock_clears_secrets_witness :
    ({ isUnlocked := true
       masterPassword := "CorrectHorseBattery9!"
       vaults := [⟨"id1", "Stripe", "ct", none, none, "iv", "salt",
         some ⟨some "sk_live_abc123", none⟩⟩]
       revealedKeys := ["id1"]
       autoLockDeadline := some 5
       error := "" } : VaultState).autoLockDeadline = some 5 ∧
    5 ≤ 6 ∧
    ((lockVault
        { isUnlocked := true
          masterPassword := "CorrectHorseBattery9!"
          vaults := [⟨"id1", "Stripe", "ct", none, none, "iv", "salt",
            some ⟨some "sk_live_abc123", none⟩⟩]
          revealedKeys := ["id1"]
          autoLockDeadline := some 5
          error := "" }).isUnlocked = false ∧
      (lockVault
        { isUnlocked := true
          masterPassword := "CorrectHorseBattery9!"
          vaults := [⟨"id1", "Stripe", "ct", none, none, "iv", "salt",
            some ⟨some "sk_live_abc123", none⟩⟩]
          revealedKeys := ["id1"]
          autoLockDeadline := some 5
          error := "" }).masterPassword = "" ∧
      (lockVault
        { isUnlocked := true
          masterPassword := "CorrectHorseBattery9!"
          vaults := [⟨"id1", "Stripe", "ct", none, none, "iv", "salt",
            some ⟨some "sk_live_abc123", none⟩⟩]
          revealedKeys := ["id1"]
          autoLockDeadline := some 5
          error := "" }).vaults = [] ∧
      (lockVault
        { isUnlocked := true
          masterPassword := "CorrectHorseBattery9!"
          vaults := [⟨"id1", "Stripe", "ct", none, none, "iv", "salt",
            some ⟨some "sk_live_abc123", none⟩⟩]
          revealedKeys := ["id1"]
          autoLockDeadline := some 5
          error := "" }).revealedKeys = [] ∧
      (lockVault
        { isUnlocked := true
          masterPassword := "CorrectHorseBattery9!"
          vaults := [⟨"id1", "Stripe", "ct", none, none, "iv", "salt",
            some ⟨some "sk_live_abc123", none⟩⟩]
          revealedKeys := ["id1"]
          autoLockDeadline := some 5
          error := "" }).autoLockDeadline = none ∧
      autoLockFire
        { isUnlocked := true
          masterPassword := "CorrectHorseBattery9!"
          vaults := [⟨"id1", "Stripe", "ct", none, none, "iv", "salt",
            some ⟨some "sk_live_abc123", none⟩⟩]
          revealedKeys := ["id1"]
          autoLockDeadline := some 5
          error := "" } 6 =
        lockVault
          { isUnlocked := true
            masterPassword := "CorrectHorseBattery9!"
            vaults := [⟨"id1", "Stripe", "ct", none, none, "iv", "salt",
              some ⟨some "sk_live_abc123", none⟩⟩]
            revealedKeys := ["id1"]
            autoLockDeadline := some 5
            error := "" }) :=
  ⟨rfl, by decide, C9_lock_clears_secrets _ 5 6 rfl (by decide)⟩
